import Mathlib

/-!
Verification development for the stock position tracker (`src/app.py`).

The tracker keeps one spreadsheet row per trade.  We embed the ledger core:
the canonical column set `COLUMNS`, the load-time normalization performed by
`get_data_cached`, the write path `save_data`, and the operations
`add_buy_position`, `close_position`, `delete_trade`, `get_open_positions`
and `get_closed_trades`.  Python floats are modelled as rationals, the
missing values `None` and `NaN` / `NaT` as the distinct constructors
`Cell.none` and `Cell.nan` (they differ in truthiness and printing), and
the `pd.to_numeric` / `pd.to_datetime` coercions as explicit parsers on
the decimal and `YYYY-MM-DD` grammars.  The parsers coincide with pandas
on numbers, missing values, blanks, plain decimal strings and ISO dates;
statements that range over arbitrary loads guard their coercion clauses
with the predicates `cellNumModeled` / `cellDateModeled` that carve out
exactly this fragment, so nothing is asserted about cells (epoch numbers
in date columns, exponent or dateutil spellings) the parsers do not
cover.

The process-wide `st.cache_data` read cache is modelled by `AppState`:
a backing store (`RawTable`) plus an optional cached normalized table.
-/

namespace StockTracer

/-- Calendar date, the logical value stored in `open_date` / `close_date`. -/
structure Date where
  year : Nat
  month : Nat
  day : Nat
  deriving DecidableEq, Repr

/-- Numeric sort/compare key for a date; injective for the two-digit
month/day and four-digit year ranges produced by parsing. -/
def dateKey (d : Date) : Nat := d.year * 10000 + d.month * 100 + d.day

/-- Dates that `%Y-%m-%d` round-trips: four-digit year, plausible month/day
(`pd.to_datetime` rejects out-of-range components). -/
def validDate (d : Date) : Bool :=
  decide (d.year ≤ 9999) && decide (1 ≤ d.month) && decide (d.month ≤ 12) &&
    decide (1 ≤ d.day) && decide (d.day ≤ 31)

/-- One spreadsheet / dataframe cell: an integer, a float (modelled as a
rational), a string, the Python value `None` (the fill value pandas uses
for a column added with `df[col] = None`), or the floating missing values
`NaN` / `NaT` (what a pandas read yields for an empty sheet cell).  The
two missing kinds must stay distinct because Python treats them
differently: `None` is falsy and prints as `None`, while `NaN` is truthy
and prints as `nan`. -/
inductive Cell where
  | int (i : Int)
  | float (q : ℚ)
  | str (s : String)
  | none
  | nan
  deriving DecidableEq, Repr

/-- Check whether a cell is a string cell. -/
def Cell.isStrB : Cell → Bool
  | .str _ => true
  | _ => false

/-- Check whether a cell is a float cell. -/
def Cell.isFloatB : Cell → Bool
  | .float _ => true
  | _ => false

/-- One in-memory trade row, exactly as `get_data_cached` leaves it: the
columns the code coerces (`id`, `buy_price`, `sell_price`, `quantity`,
`pnl`, the two dates) carry their coerced types, the columns the code never
touches (`symbol`, `pnl_percent`, `status`, `notes`) stay raw cells. -/
structure Trade where
  id : Int
  symbol : Cell
  buy_price : ℚ
  sell_price : ℚ
  quantity : Int
  open_date : Option Date
  close_date : Option Date
  pnl : ℚ
  pnl_percent : Cell
  status : Cell
  notes : Cell
  deriving DecidableEq, Repr

/-- ASCII digit test on a character. -/
def isDigitC (c : Char) : Bool := decide (48 ≤ c.toNat) && decide (c.toNat ≤ 57)

/-- Value of an ASCII digit character. -/
def dval (c : Char) : Nat := c.toNat - 48

/-- Value of a big-endian digit string. -/
def digitsToNat (cs : List Char) : Nat := cs.foldl (fun a c => a * 10 + dval c) 0

/-- Model of `pd.to_numeric(x, errors="coerce")` on a string cell, covering
the plain decimal grammar `[-]digits[.digits]`; anything else coerces to
`NaN` (`Option.none`). -/
def parseNumeric (s : String) : Option ℚ :=
  let cs := s.toList
  let neg := match cs with
    | c :: _ => c == '-'
    | _ => false
  let body := if neg then cs.tail else cs
  let ip := body.takeWhile isDigitC
  let rest := body.dropWhile isDigitC
  let mag : Option ℚ :=
    match rest with
    | [] => if ip.isEmpty then Option.none else some ((digitsToNat ip : ℚ))
    | c :: frac =>
      if (c == '.') && !ip.isEmpty && !frac.isEmpty && frac.all isDigitC then
        some ((digitsToNat ip : ℚ) + (digitsToNat frac : ℚ) / ((10 : ℚ) ^ frac.length))
      else Option.none
  match mag with
  | some v => some (if neg then -v else v)
  | Option.none => Option.none

/-- Model of `pd.to_datetime(x, errors="coerce")` on a string cell for the
`YYYY-MM-DD` layout the application itself writes; malformed or
out-of-range text coerces to `NaT` (`Option.none`). -/
def parseDate (s : String) : Option Date :=
  match s.toList with
  | [y1, y2, y3, y4, h1, m1, m2, h2, d1, d2] =>
    if isDigitC y1 && isDigitC y2 && isDigitC y3 && isDigitC y4 && (h1 == '-') &&
        isDigitC m1 && isDigitC m2 && (h2 == '-') && isDigitC d1 && isDigitC d2 then
      let y := dval y1 * 1000 + dval y2 * 100 + dval y3 * 10 + dval y4
      let m := dval m1 * 10 + dval m2
      let d := dval d1 * 10 + dval d2
      if 1 ≤ m ∧ m ≤ 12 ∧ 1 ≤ d ∧ d ≤ 31 then some ⟨y, m, d⟩ else Option.none
    else Option.none
  | _ => Option.none

/-- Character of a decimal digit. -/
def digitChar (n : Nat) : Char := Char.ofNat (48 + n % 10)

/-- Model of `strftime("%Y-%m-%d")`: zero-padded four-digit year and
two-digit month and day. -/
def formatDate (d : Date) : String :=
  String.mk [digitChar (d.year / 1000), digitChar (d.year / 100), digitChar (d.year / 10),
    digitChar d.year, '-', digitChar (d.month / 10), digitChar d.month, '-',
    digitChar (d.day / 10), digitChar d.day]

/-- Model of `pd.to_numeric(cell, errors="coerce")` on a single cell.
On numbers and missing values it is exact; on strings it is exact for the
plain decimal grammar and for `""`, while pandas additionally accepts
spellings such as exponent notation — assertions about string cells are
therefore guarded by `cellNumModeled` where a claim ranges over arbitrary
loads. -/
def toNumeric : Cell → Option ℚ
  | .int i => some (i : ℚ)
  | .float q => some q
  | .str s => parseNumeric s
  | .none => Option.none
  | .nan => Option.none

/-- Model of `pd.to_datetime(cell, errors="coerce")` on a single cell.
Missing values become `NaT` exactly as in pandas; strings are exact for
the `YYYY-MM-DD` layout and for `""`.  Numeric cells (which pandas reads
as nanosecond epochs) and other string layouts (which dateutil may parse)
are not modelled — assertions about date cells are therefore guarded by
`cellDateModeled` where a claim ranges over arbitrary loads. -/
def toDatetime : Cell → Option Date
  | .str s => parseDate s
  | .none => Option.none
  | .nan => Option.none
  | .int _ => Option.none
  | .float _ => Option.none

/-- Truncation toward zero, the effect of `.astype(int)` on a float. -/
def truncToInt (q : ℚ) : Int := if 0 ≤ q then Int.floor q else Int.ceil q

/-- The canonical column list `COLUMNS` of `app.py`. -/
def COLUMNS : List String :=
  ["id", "symbol", "buy_price", "sell_price", "quantity",
   "open_date", "close_date", "pnl", "pnl_percent", "status", "notes"]

/-- A raw table as the spreadsheet connection returns it: a header row of
column names and one list of cells per data row, positionally aligned. -/
structure RawTable where
  cols : List String
  rows : List (List Cell)
  deriving DecidableEq, Repr

/-- Value of column `c` in a row: the cell under the first occurrence of
`c` in the header, `Cell.none` when the column is absent or the row is too
short (pandas yields the fill value `None` there). -/
def getCell : List String → List Cell → String → Cell
  | [], _, _ => Cell.none
  | k :: ks, row, c => if k == c then row.headD Cell.none else getCell ks row.tail c

/-- The header after `df = df[existing_cols]` followed by `df[col] = None`
for each missing canonical column: canonical columns present in the load,
in `COLUMNS` order, then the missing canonical columns. -/
def pipelineCols (cols : List String) : List String :=
  COLUMNS.filter (fun c => cols.contains c) ++ COLUMNS.filter (fun c => !cols.contains c)

/-- A data row after the same column restriction and extension: the cells
of the kept columns followed by `None` for each missing column. -/
def pipelineRow (cols : List String) (row : List Cell) : List Cell :=
  (COLUMNS.filter (fun c => cols.contains c)).map (fun c => getCell cols row c) ++
    (COLUMNS.filter (fun c => !cols.contains c)).map (fun _ => Cell.none)

/-- The per-row effect of the forced type conversions in `get_data_cached`:
`id` and `quantity` through `to_numeric` / `fillna(0)` / `astype(int)`,
the price and `pnl` columns through `to_numeric` / `fillna(0.0)`, the two
date columns through `to_datetime(errors="coerce")`, and the remaining
four columns (`symbol`, `pnl_percent`, `status`, `notes`) untouched. -/
def normRow (cols : List String) (row : List Cell) : Trade :=
  let pc := pipelineCols cols
  let pr := pipelineRow cols row
  { id := truncToInt ((toNumeric (getCell pc pr "id")).getD 0)
    symbol := getCell pc pr "symbol"
    buy_price := (toNumeric (getCell pc pr "buy_price")).getD 0
    sell_price := (toNumeric (getCell pc pr "sell_price")).getD 0
    quantity := truncToInt ((toNumeric (getCell pc pr "quantity")).getD 0)
    open_date := toDatetime (getCell pc pr "open_date")
    close_date := toDatetime (getCell pc pr "close_date")
    pnl := (toNumeric (getCell pc pr "pnl")).getD 0
    pnl_percent := getCell pc pr "pnl_percent"
    status := getCell pc pr "status"
    notes := getCell pc pr "notes" }

/-- Pure content of `get_data_cached`: an empty load, or one with fewer
columns than the canonical set, is reinitialized to the empty canonical
table; otherwise every row is normalized by `normRow`. -/
def normalize (t : RawTable) : List Trade :=
  if t.rows.isEmpty || decide (t.cols.length < COLUMNS.length) then []
  else t.rows.map (normRow t.cols)

/-- Serialization of an `Option Date` column cell in `save_data`:
`to_datetime` then `strftime("%Y-%m-%d")` turns a date into its string,
`NaT` becomes `NaN` under `strftime` and the final `fillna("")` turns it
into the empty string. -/
def dateCell : Option Date → Cell
  | some d => Cell.str (formatDate d)
  | Option.none => Cell.str ""

/-- The final `fillna("")` of `save_data` on a raw cell: the missing
values (`None` as well as `NaN` / `NaT`) are persisted as empty strings,
everything else is untouched. -/
def fillCell (c : Cell) : Cell :=
  if c = Cell.none ∨ c = Cell.nan then Cell.str "" else c

/-- One persisted row, in the canonical column order. -/
def serializeRow (t : Trade) : List Cell :=
  [Cell.int t.id, fillCell t.symbol, Cell.float t.buy_price, Cell.float t.sell_price,
   Cell.int t.quantity, dateCell t.open_date, dateCell t.close_date, Cell.float t.pnl,
   fillCell t.pnl_percent, fillCell t.status, fillCell t.notes]

/-- Model of `save_data`: the whole table is rewritten with the canonical
header, dates as `YYYY-MM-DD` strings and missing values as `""`. -/
def save_data (df : List Trade) : RawTable :=
  { cols := COLUMNS, rows := df.map serializeRow }

/-- The value of `df["id"].max()` on a nonempty table (`0`, unused, on an
empty one). -/
def dfMaxId : List Trade → Int
  | [] => 0
  | t :: ts => (ts.map Trade.id).foldl max t.id

/-- Id chosen by `add_buy_position`: `new_id = 1`, replaced by
`max + 1` when the table is nonempty and its maximal id is positive. -/
def nextId (df : List Trade) : Int :=
  if df.isEmpty = false ∧ 0 < dfMaxId df then dfMaxId df + 1 else 1

/-- Model of Python `symbol.upper()` on the ASCII ticker strings the form
accepts: upper-case every character. -/
def upperString (s : String) : String := String.mk (s.data.map Char.toUpper)

/-- Model of `add_buy_position`: append a fresh `OPEN` row with the next
id, the upper-cased symbol, zero sell price and pnl, and no close date. -/
def add_buy_position (df : List Trade) (symbol : String) (buy_price : ℚ)
    (quantity : Int) (open_date : Date) (notes : String) : List Trade :=
  df ++ [{ id := nextId df
           symbol := Cell.str (upperString symbol)
           buy_price := buy_price
           sell_price := 0
           quantity := quantity
           open_date := some open_date
           close_date := Option.none
           pnl := 0
           pnl_percent := Cell.float 0
           status := Cell.str "OPEN"
           notes := Cell.str notes }]

/-- Python truthiness of a cell, used by `if old_notes` in
`close_position`: empty strings, zero numbers and `None` are falsy, but
the missing value `NaN` is a float and therefore truthy. -/
def cellTruthy : Cell → Bool
  | .str s => !s.isEmpty
  | .int i => decide (i ≠ 0)
  | .float q => decide (q ≠ 0)
  | .none => false
  | .nan => true

/-- Python `str()` of a cell, used by `str(old_notes)`: exact on strings,
on `None` (`"None"`) and on `NaN` (`"nan"`), which are the only cell
kinds a notes column holds in this application; the numeric cases are a
stand-in (Python renders floats in decimal notation) and are exercised by
no claim. -/
def cellStr : Cell → String
  | .str s => s
  | .int i => toString i
  | .float q => toString q
  | .none => "None"
  | .nan => "nan"

/-- The row update performed by `close_position` once the row with the
requested id is found: recompute cost, revenue, pnl and pnl percent (an
integer `0` when the cost basis is zero), append the sell note behind the
labelled separator when prior notes are truthy, and set the status to
`CLOSED`.  No check of the current status is made. -/
def applyClose (t : Trade) (sell_price : ℚ) (close_date : Date) (notes : String) : Trade :=
  let cost := t.buy_price * (t.quantity : ℚ)
  let revenue := sell_price * (t.quantity : ℚ)
  let pnl := revenue - cost
  let pnl_percent : Cell :=
    if cost ≠ 0 then Cell.float (pnl / cost * 100) else Cell.int 0
  let new_notes : Cell :=
    if cellTruthy t.notes then Cell.str (cellStr t.notes ++ " | 卖出备注: " ++ notes)
    else Cell.str notes
  { t with sell_price := sell_price
           close_date := some close_date
           pnl := pnl
           pnl_percent := pnl_percent
           status := Cell.str "CLOSED"
           notes := new_notes }

/-- Model of `close_position`: update the first row whose id matches
(`df[mask].index[0]`), leave the table unchanged when no row matches. -/
def close_position (df : List Trade) (trade_id : Int) (sell_price : ℚ)
    (close_date : Date) (notes : String) : List Trade :=
  match df with
  | [] => []
  | t :: ts =>
    if t.id = trade_id then applyClose t sell_price close_date notes :: ts
    else t :: close_position ts trade_id sell_price close_date notes

/-- Model of `delete_trade`: keep every row whose id differs. -/
def delete_trade (df : List Trade) (trade_id : Int) : List Trade :=
  df.filter (fun t => decide (t.id ≠ trade_id))

/-- Model of `get_open_positions`: the rows whose status cell equals the
string `OPEN`. -/
def get_open_positions (df : List Trade) : List Trade :=
  df.filter (fun t => decide (t.status = Cell.str "OPEN"))

/-- Sort rank of a row for `sort_values(by="close_date")`: the date key
for dated rows; `NaT` rows are kept out of the comparison sort and
placed last (`na_position="last"`), so their rank `-1` is only used to
state ordering facts. -/
def rank (t : Trade) : Int :=
  match t.close_date with
  | some d => (dateKey d : Int)
  | Option.none => -1

/-- Stable insertion into an ascending-by-`rank` list: the new element
goes in front of the first element of greater or equal rank.  This is the
behavior of numpy's argsort in its stable regime (small arrays fall into
the insertion-sort branch of introsort; `kind="stable"` always). -/
def insertAsc (x : Trade) : List Trade → List Trade
  | [] => [x]
  | y :: ys => if rank x ≤ rank y then x :: y :: ys else y :: insertAsc x ys

/-- Stable ascending sort by `rank`. -/
def sortAsc : List Trade → List Trade
  | [] => []
  | x :: xs => insertAsc x (sortAsc xs)

/-- Model of `get_closed_trades`: filter the `CLOSED` rows, then
`sort_values(by="close_date", ascending=False)`.  For a descending sort
pandas' `nargsort` reverses the non-`NaT` values and their indices,
stable-ascending-argsorts the reversed array, and reverses the resulting
indexer again — the double reversal makes the descending sort stable, so
rows with equal keys keep their storage order; the `NaT` rows are
appended last in storage order (`na_position="last"`). -/
def get_closed_trades (df : List Trade) : List Trade :=
  let closed := df.filter (fun t => decide (t.status = Cell.str "CLOSED"))
  (sortAsc ((closed.filter (fun t => t.close_date.isSome)).reverse)).reverse ++
    closed.filter (fun t => !t.close_date.isSome)

/-- Process state: the backing spreadsheet plus the `st.cache_data` cache
of `get_data_cached`, which has no expiry (`ttl=None`). -/
structure AppState where
  store : RawTable
  cache : Option (List Trade)
  deriving Repr

/-- Stateful `get_data`: a cache hit returns the cached table unchanged;
a miss reads the store, reinitializes an empty or short table (writing the
empty canonical table back), normalizes, and fills the cache. -/
def get_dataS (s : AppState) : List Trade × AppState :=
  match s.cache with
  | some t => (t, s)
  | Option.none =>
    if s.store.rows.isEmpty || decide (s.store.cols.length < COLUMNS.length) then
      ([], { store := { cols := COLUMNS, rows := [] }, cache := some [] })
    else
      (normalize s.store, { store := s.store, cache := some (normalize s.store) })

/-- Stateful `add_buy_position`: read through the cache, append the new
row, write the store.  The cache is left as it was — `app.py` never calls
`get_data_cached.clear()` after a write. -/
def add_buy_positionS (s : AppState) (symbol : String) (buy_price : ℚ)
    (quantity : Int) (open_date : Date) (notes : String) : AppState :=
  let p := get_dataS s
  let df2 := add_buy_position p.1 symbol buy_price quantity open_date notes
  { store := save_data df2, cache := p.2.cache }

/-- Stateful `get_open_positions`: a read served through the cache. -/
def get_open_positionsS (s : AppState) : List Trade :=
  get_open_positions (get_dataS s).1

/-! Helper lemmas about the ledger operations -/

theorem close_position_first (pre : List Trade) (t : Trade) (post : List Trade)
    (i : Int) (v : ℚ) (d : Date) (n : String)
    (hpre : ∀ u ∈ pre, u.id ≠ i) (ht : t.id = i) :
    close_position (pre ++ t :: post) i v d n = pre ++ applyClose t v d n :: post := by
  induction pre with
  | nil => simp [close_position, ht]
  | cons p ps ih =>
    have hp : p.id ≠ i := hpre p (by simp)
    simp only [List.cons_append, close_position, if_neg hp, List.append_eq]
    rw [ih (fun u hu => hpre u (by simp [hu]))]

theorem le_foldl_max (a : Int) (l : List Int) : a ≤ l.foldl max a := by
  induction l generalizing a with
  | nil => simp
  | cons x xs ih => exact le_trans (le_max_left a x) (ih (max a x))

theorem mem_le_foldl_max (a : Int) (l : List Int) (x : Int) (hx : x ∈ l) :
    x ≤ l.foldl max a := by
  induction l generalizing a with
  | nil => cases hx
  | cons y ys ih =>
    rcases List.mem_cons.mp hx with h | h
    · subst h
      exact le_trans (le_max_right a x) (le_foldl_max _ _)
    · exact ih (max a y) h

theorem foldl_max_comm (a b : Int) (l : List Int) :
    l.foldl max (max a b) = max a (l.foldl max b) := by
  induction l generalizing b with
  | nil => simp
  | cons x xs ih =>
    simp only [List.foldl_cons]
    rw [max_assoc, ih]

/-- The id set the spec's formula refers to: `max(existing ids ∪ ⟨0⟩)`. -/
def maxWith0 (df : List Trade) : Int := (df.map Trade.id).foldl max 0

theorem maxWith0_eq (df : List Trade) : maxWith0 df = max 0 (dfMaxId df) := by
  cases df with
  | nil => simp [maxWith0, dfMaxId]
  | cons t ts =>
    simp only [maxWith0, dfMaxId, List.map_cons, List.foldl_cons]
    exact foldl_max_comm 0 t.id (ts.map Trade.id)

theorem nextId_eq (df : List Trade) : nextId df = maxWith0 df + 1 := by
  unfold nextId
  rw [maxWith0_eq]
  by_cases h : df.isEmpty = false ∧ 0 < dfMaxId df
  · rw [if_pos h, max_eq_right (le_of_lt h.2)]
  · rw [if_neg h]
    cases df with
    | nil => simp [dfMaxId]
    | cons t ts =>
      have h2 : ¬0 < dfMaxId (t :: ts) := by
        intro hc
        exact h ⟨by simp [List.isEmpty], hc⟩
      rw [max_eq_left (by omega)]
      omega

theorem id_le_dfMaxId (df : List Trade) (t : Trade) (h : t ∈ df) :
    t.id ≤ dfMaxId df := by
  cases df with
  | nil => cases h
  | cons u us =>
    rcases List.mem_cons.mp h with h | h
    · subst h
      exact le_foldl_max _ _
    · exact mem_le_foldl_max _ _ _ (List.mem_map_of_mem Trade.id h)

theorem id_lt_nextId (df : List Trade) (t : Trade) (h : t ∈ df) :
    t.id < nextId df := by
  rw [nextId_eq, maxWith0_eq]
  have h1 := id_le_dfMaxId df t h
  have h2 : dfMaxId df ≤ max 0 (dfMaxId df) := le_max_right _ _
  omega

theorem truncToInt_intCast (i : Int) : truncToInt (i : ℚ) = i := by
  unfold truncToInt
  split
  · exact Int.floor_intCast i
  · exact Int.ceil_intCast i

/-! Helper lemmas about the closed-trades sort -/

theorem insertAsc_perm (x : Trade) (l : List Trade) :
    List.Perm (insertAsc x l) (x :: l) := by
  induction l with
  | nil => simp [insertAsc]
  | cons y ys ih =>
    unfold insertAsc
    split
    · exact List.Perm.refl _
    · exact List.Perm.trans (List.Perm.cons y ih) (List.Perm.swap x y ys)

theorem sortAsc_perm (l : List Trade) : List.Perm (sortAsc l) l := by
  induction l with
  | nil => simp [sortAsc]
  | cons x xs ih =>
    exact List.Perm.trans (insertAsc_perm x (sortAsc xs)) (List.Perm.cons x ih)

theorem get_closed_trades_perm (df : List Trade) :
    List.Perm (get_closed_trades df)
      (df.filter (fun t => decide (t.status = Cell.str "CLOSED"))) := by
  unfold get_closed_trades
  have h1 : List.Perm
      ((sortAsc (((df.filter (fun t => decide (t.status = Cell.str "CLOSED"))).filter
        (fun t => t.close_date.isSome)).reverse)).reverse)
      ((df.filter (fun t => decide (t.status = Cell.str "CLOSED"))).filter
        (fun t => t.close_date.isSome)) :=
    List.Perm.trans (List.Perm.trans (List.reverse_perm _) (sortAsc_perm _))
      (List.reverse_perm _)
  exact List.Perm.trans (List.Perm.append h1 (List.Perm.refl _))
    (List.filter_append_perm _ _)

theorem toNat_digitChar (n : Nat) : (digitChar n).toNat = 48 + n % 10 := by
  have h : ∀ k, k < 10 → (Char.ofNat (48 + k)).toNat = 48 + k := by decide
  exact h (n % 10) (Nat.mod_lt n (by norm_num))

theorem isDigitC_digitChar (n : Nat) : isDigitC (digitChar n) = true := by
  unfold isDigitC
  rw [toNat_digitChar]
  have h : n % 10 < 10 := Nat.mod_lt n (by norm_num)
  simp only [Bool.and_eq_true, decide_eq_true_eq]
  omega

theorem dval_digitChar (n : Nat) : dval (digitChar n) = n % 10 := by
  unfold dval
  rw [toNat_digitChar]
  omega

theorem parseDate_formatDate (d : Date) (h : validDate d = true) :
    parseDate (formatDate d) = some d := by
  have hb : d.year ≤ 9999 ∧ 1 ≤ d.month ∧ d.month ≤ 12 ∧ 1 ≤ d.day ∧ d.day ≤ 31 := by
    unfold validDate at h
    simp only [Bool.and_eq_true, decide_eq_true_eq] at h
    tauto
  unfold formatDate parseDate
  simp only [String.toList, isDigitC_digitChar, beq_self_eq_true, Bool.and_self,
    Bool.and_true, Bool.true_and, if_true, dval_digitChar]
  have hy : d.year / 1000 % 10 * 1000 + d.year / 100 % 10 * 100 + d.year / 10 % 10 * 10 +
      d.year % 10 = d.year := by omega
  have hm : d.month / 10 % 10 * 10 + d.month % 10 = d.month := by omega
  have hd : d.day / 10 % 10 * 10 + d.day % 10 = d.day := by omega
  rw [hy, hm, hd]
  rw [if_pos (by omega)]

/-! Round-trip helpers -/

/-- Canonical rows as the write path of the application itself produces
them: any dates are calendar-valid with four-digit years, and the four
uncoerced columns hold a string (resp. a float for `pnl_percent`). -/
def canonTrade (t : Trade) : Bool :=
  (match t.open_date with
   | some d => validDate d
   | Option.none => true) &&
  (match t.close_date with
   | some d => validDate d
   | Option.none => true) &&
  t.symbol.isStrB && t.pnl_percent.isFloatB && t.status.isStrB && t.notes.isStrB

theorem fillCell_of_isStrB (c : Cell) (h : c.isStrB = true) : fillCell c = c := by
  cases c <;> simp_all [Cell.isStrB, fillCell]

theorem fillCell_of_isFloatB (c : Cell) (h : c.isFloatB = true) : fillCell c = c := by
  cases c <;> simp_all [Cell.isFloatB, fillCell]

theorem toDatetime_dateCell (od : Option Date)
    (h : ∀ d, od = some d → validDate d = true) :
    toDatetime (dateCell od) = od := by
  cases od with
  | none => rfl
  | some d => exact parseDate_formatDate d (h d rfl)

theorem normRow_COLUMNS (v0 v1 v2 v3 v4 v5 v6 v7 v8 v9 v10 : Cell) :
    normRow COLUMNS [v0, v1, v2, v3, v4, v5, v6, v7, v8, v9, v10] =
      { id := truncToInt ((toNumeric v0).getD 0)
        symbol := v1
        buy_price := (toNumeric v2).getD 0
        sell_price := (toNumeric v3).getD 0
        quantity := truncToInt ((toNumeric v4).getD 0)
        open_date := toDatetime v5
        close_date := toDatetime v6
        pnl := (toNumeric v7).getD 0
        pnl_percent := v8
        status := v9
        notes := v10 } := rfl

theorem normRow_serializeRow (t : Trade) (h : canonTrade t = true) :
    normRow COLUMNS (serializeRow t) = t := by
  simp only [canonTrade, Bool.and_eq_true] at h
  obtain ⟨⟨⟨⟨⟨h1, h2⟩, h3⟩, h4⟩, h5⟩, h6⟩ := h
  unfold serializeRow
  rw [normRow_COLUMNS]
  cases t with
  | mk id symbol buy_price sell_price quantity open_date close_date pnl pnl_percent status notes =>
    simp only [Trade.mk.injEq]
    refine ⟨?_, ?_, rfl, rfl, ?_, ?_, ?_, rfl, ?_, ?_, ?_⟩
    · exact truncToInt_intCast id
    · exact fillCell_of_isStrB _ h3
    · exact truncToInt_intCast quantity
    · exact toDatetime_dateCell _ (fun d hd => by
        simp only at h1
        rw [hd] at h1
        exact h1)
    · exact toDatetime_dateCell _ (fun d hd => by
        simp only at h2
        rw [hd] at h2
        exact h2)
    · exact fillCell_of_isFloatB _ h4
    · exact fillCell_of_isStrB _ h5
    · exact fillCell_of_isStrB _ h6

theorem normalize_save_data (df : List Trade) (h : ∀ t ∈ df, canonTrade t = true) :
    normalize (save_data df) = df := by
  unfold normalize save_data
  cases df with
  | nil => simp
  | cons t ts =>
    rw [if_neg (by simp), List.map_map]
    have hpt : ∀ x ∈ t :: ts, (normRow COLUMNS ∘ serializeRow) x = id x :=
      fun x hx => normRow_serializeRow x (h x hx)
    rw [List.map_congr_left hpt, List.map_id]

/-- A freshly opened position (id 5, bought at 100, quantity 10). -/
def rowOpen : Trade :=
  { id := 5
    symbol := Cell.str "AAPL"
    buy_price := 100
    sell_price := 0
    quantity := 10
    open_date := some ⟨2024, 1, 2⟩
    close_date := Option.none
    pnl := 0
    pnl_percent := Cell.float 0
    status := Cell.str "OPEN"
    notes := Cell.str "A" }

/-- The same position after a first close at 150. -/
def rowClosed : Trade :=
  { rowOpen with
    sell_price := 150
    close_date := some ⟨2024, 2, 1⟩
    pnl := 500
    pnl_percent := Cell.float 50
    status := Cell.str "CLOSED"
    notes := Cell.str "done" }

/-! Claims -/

/-- Fresh process state over an already-initialized empty canonical sheet,
before any read has populated the cache. -/
def initialStateC1 : AppState :=
  { store := { cols := COLUMNS, rows := [] }, cache := Option.none }

/-- Claim C1: after every mutating operation the process-wide read cache
is supposed to be invalidated or refreshed before any dependent read, so
that subsequent queries observe the mutated table.  The code never clears
the `st.cache_data(ttl=None)` cache: this theorem runs `add_buy_position`
on a fresh state and shows the subsequent `get_open_positions` read still
answers from the stale cache (the empty table), although the backing
store now normalizes to a table whose only row is the freshly opened
OPEN position with id 1. -/
theorem claim_C1 :
    get_open_positionsS (add_buy_positionS initialStateC1 "AAPL" 100 10 ⟨2024, 1, 2⟩ "n") = [] ∧
    (get_open_positions (normalize
      (add_buy_positionS initialStateC1 "AAPL" 100 10 ⟨2024, 1, 2⟩ "n").store)).map Trade.id = [1] ∧
    (get_open_positions (normalize
      (add_buy_positionS initialStateC1 "AAPL" 100 10 ⟨2024, 1, 2⟩ "n").store)).map Trade.status =
      [Cell.str "OPEN"] := by
  decide

/-- One open on the empty table: the row gets id 1. -/
def dfA : List Trade := add_buy_position [] "AAA" 10 1 ⟨2024, 1, 1⟩ ""

/-- A second open: the new row gets id 2. -/
def dfB : List Trade := add_buy_position dfA "BBB" 10 1 ⟨2024, 1, 1⟩ ""

/-- Delete the row with id 2, then open again. -/
def dfC : List Trade := add_buy_position (delete_trade dfB 2) "CCC" 10 1 ⟨2024, 1, 1⟩ ""

/-- Claim C2, refutation of the no-reuse half: id 2 is assigned to the
`BBB` row, that row is deleted, and the very next open assigns id 2 again
to the `CCC` row — so an id can be reassigned after the row holding the
maximal id is deleted. -/
theorem claim_C2_counterexample :
    (∃ t, t ∈ dfB ∧ t.id = 2 ∧ t.symbol = Cell.str "BBB") ∧
    (∃ t, t ∈ dfC ∧ t.id = 2 ∧ t.symbol = Cell.str "CCC") := by
  decide

/-- Claim C2 (amended): every open appends exactly one row whose id is
`max(existing ids ∪ ⟨0⟩) + 1` (so 1 on the empty table), and that id is
strictly greater than every id currently in the table — ids are therefore
never duplicated among live rows, but nothing prevents reuse once the row
holding the maximum id has been deleted. -/
theorem claim_C2 (df : List Trade) (s : String) (p : ℚ) (q : Int) (d : Date) (n : String) :
    ∃ u, add_buy_position df s p q d n = df ++ [u] ∧
      u.id = maxWith0 df + 1 ∧ ∀ t ∈ df, t.id < u.id := by
  refine ⟨_, rfl, ?_, ?_⟩
  · exact nextId_eq df
  · intro t ht
    exact id_lt_nextId df t ht

/-- Claim C2 witness: the amended statement evaluated on a one-row table. -/
theorem claim_C2_witness :
    ∃ u, add_buy_position [rowOpen] "X" 1 1 ⟨2024, 1, 1⟩ "" = [rowOpen] ++ [u] ∧
      u.id = maxWith0 [rowOpen] + 1 ∧ ∀ t ∈ [rowOpen], t.id < u.id :=
  claim_C2 [rowOpen] "X" 1 1 ⟨2024, 1, 1⟩ ""

/-- Claim C3, refutation: closing the already-CLOSED row id 5 a second
time at price 200 is neither a no-op nor rejected — the row is rewritten
with the new sell price and a freshly recomputed pnl. -/
theorem claim_C3_counterexample :
    rowClosed.status = Cell.str "CLOSED" ∧
    close_position [rowClosed] 5 200 ⟨2024, 3, 1⟩ "again" ≠ [rowClosed] ∧
    (close_position [rowClosed] 5 200 ⟨2024, 3, 1⟩ "again").map Trade.sell_price = [200] ∧
    (close_position [rowClosed] 5 200 ⟨2024, 3, 1⟩ "again").map Trade.pnl = [1000] := by
  have hmap : (close_position [rowClosed] 5 200 ⟨2024, 3, 1⟩ "again").map Trade.sell_price =
      [200] := by
    simp [close_position, applyClose, rowClosed, rowOpen]
  refine ⟨rfl, ?_, hmap, ?_⟩
  · intro h
    rw [h] at hmap
    simp [rowClosed, rowOpen] at hmap
  · simp [close_position, applyClose, rowClosed, rowOpen]
    norm_num

/-- Claim C3 (amended): closing an id whose first matching row is already
CLOSED re-applies the close to that row: sell_price, close_date and pnl
are overwritten with freshly computed values (and the close-time note is
appended once more), the status staying CLOSED. -/
theorem claim_C3 (pre : List Trade) (t : Trade) (post : List Trade) (i : Int)
    (v : ℚ) (d : Date) (n : String)
    (hpre : ∀ u ∈ pre, u.id ≠ i) (ht : t.id = i)
    (_hst : t.status = Cell.str "CLOSED") :
    ∃ u, close_position (pre ++ t :: post) i v d n = pre ++ u :: post ∧
      u.sell_price = v ∧ u.close_date = some d ∧
      u.pnl = v * (t.quantity : ℚ) - t.buy_price * (t.quantity : ℚ) ∧
      u.status = Cell.str "CLOSED" :=
  ⟨applyClose t v d n, close_position_first pre t post i v d n hpre ht,
    rfl, rfl, rfl, rfl⟩

/-- Claim C3 witness: the amended statement evaluated on the concrete
already-closed row. -/
theorem claim_C3_witness :
    ∃ u, close_position ([] ++ rowClosed :: []) 5 200 ⟨2024, 3, 1⟩ "x" = [] ++ u :: [] ∧
      u.sell_price = 200 ∧ u.close_date = some ⟨2024, 3, 1⟩ ∧
      u.pnl = 200 * (rowClosed.quantity : ℚ) - rowClosed.buy_price * (rowClosed.quantity : ℚ) ∧
      u.status = Cell.str "CLOSED" :=
  claim_C3 [] rowClosed [] 5 200 ⟨2024, 3, 1⟩ "x" (by simp) rfl rfl

/-- Claim C4: closing a present id computes `cost = buy_price × quantity`,
`pnl = sell_price × quantity − cost`, `pnl_percent = pnl / cost × 100`
when `cost ≠ 0` (else `0`), sets status CLOSED on that row only, and keeps
buy price, quantity and id unchanged. -/
theorem claim_C4 (pre : List Trade) (t : Trade) (post : List Trade) (i : Int)
    (v : ℚ) (d : Date) (n : String)
    (hpre : ∀ u ∈ pre, u.id ≠ i) (ht : t.id = i) :
    ∃ u, close_position (pre ++ t :: post) i v d n = pre ++ u :: post ∧
      u.sell_price = v ∧ u.close_date = some d ∧
      u.pnl = v * (t.quantity : ℚ) - t.buy_price * (t.quantity : ℚ) ∧
      u.pnl_percent = (if t.buy_price * (t.quantity : ℚ) ≠ 0 then
        Cell.float ((v * (t.quantity : ℚ) - t.buy_price * (t.quantity : ℚ)) /
          (t.buy_price * (t.quantity : ℚ)) * 100)
        else Cell.int 0) ∧
      u.status = Cell.str "CLOSED" ∧
      u.buy_price = t.buy_price ∧ u.quantity = t.quantity ∧ u.id = t.id :=
  ⟨applyClose t v d n, close_position_first pre t post i v d n hpre ht,
    rfl, rfl, rfl, rfl, rfl, rfl, rfl, rfl⟩

/-- Claim C4 witness: the spec's concrete instance — closing the OPEN row
with buy 100 and quantity 10 at 150 yields pnl 500, pnl_percent 50.0 and
status CLOSED. -/
theorem claim_C4_witness :
    (∃ u, close_position ([] ++ rowOpen :: []) 5 150 ⟨2024, 3, 1⟩ "" = [] ++ u :: [] ∧
      u.sell_price = 150 ∧ u.close_date = some ⟨2024, 3, 1⟩ ∧
      u.pnl = 150 * (rowOpen.quantity : ℚ) - rowOpen.buy_price * (rowOpen.quantity : ℚ) ∧
      u.pnl_percent = (if rowOpen.buy_price * (rowOpen.quantity : ℚ) ≠ 0 then
        Cell.float ((150 * (rowOpen.quantity : ℚ) - rowOpen.buy_price * (rowOpen.quantity : ℚ)) /
          (rowOpen.buy_price * (rowOpen.quantity : ℚ)) * 100)
        else Cell.int 0) ∧
      u.status = Cell.str "CLOSED" ∧
      u.buy_price = rowOpen.buy_price ∧ u.quantity = rowOpen.quantity ∧ u.id = rowOpen.id) ∧
    (close_position [rowOpen] 5 150 ⟨2024, 3, 1⟩ "").map Trade.pnl = [500] ∧
    (close_position [rowOpen] 5 150 ⟨2024, 3, 1⟩ "").map Trade.pnl_percent = [Cell.float 50] ∧
    (close_position [rowOpen] 5 150 ⟨2024, 3, 1⟩ "").map Trade.status = [Cell.str "CLOSED"] := by
  refine ⟨claim_C4 [] rowOpen [] 5 150 ⟨2024, 3, 1⟩ "" (by simp) rfl, ?_, ?_, ?_⟩
  · simp [close_position, applyClose, rowOpen]
    norm_num
  · simp [close_position, applyClose, rowOpen]
    norm_num
  · simp [close_position, applyClose, rowOpen]

/-- The row opened at 100 whose notes column holds the missing value
`NaN` — the shape a pandas read of an empty notes cell produces. -/
def rowNanNotes : Trade := { rowOpen with notes := Cell.nan }

/-- Claim C7, refutation of the no-prior-notes half: a row whose notes
cell is the missing value `NaN` has no prior notes, yet Python's
`if old_notes` finds `NaN` truthy and `str(old_notes)` renders it as
`"nan"`, so closing with notes "B" yields `"nan | 卖出备注: B"` instead
of exactly the close-time text. -/
theorem claim_C7_counterexample :
    (close_position [rowNanNotes] 5 150 ⟨2024, 3, 1⟩ "B").map Trade.notes =
      [Cell.str "nan | 卖出备注: B"] ∧
    Cell.str "nan | 卖出备注: B" ≠ Cell.str "B" := by
  refine ⟨by decide, by decide⟩

/-- Claim C7 (amended): closing a row whose prior notes are a non-empty
string yields that string verbatim as a prefix, then the labelled
separator, then the close-time text; when the prior notes cell is the
empty string or Python `None` the result is exactly the close-time text;
but when it is the missing value `NaN` (truthy in Python) the program
appends behind the rendering `"nan"` instead. -/
theorem claim_C7 (pre : List Trade) (t : Trade) (post : List Trade) (i : Int)
    (v : ℚ) (d : Date) (n : String)
    (hpre : ∀ u ∈ pre, u.id ≠ i) (ht : t.id = i) :
    (∀ s : String, t.notes = Cell.str s → s ≠ "" →
      ∃ u, close_position (pre ++ t :: post) i v d n = pre ++ u :: post ∧
        u.notes = Cell.str (s ++ " | 卖出备注: " ++ n) ∧
        ∃ rest, s ++ " | 卖出备注: " ++ n = s ++ rest) ∧
    ((t.notes = Cell.str "" ∨ t.notes = Cell.none) →
      ∃ u, close_position (pre ++ t :: post) i v d n = pre ++ u :: post ∧
        u.notes = Cell.str n) ∧
    (t.notes = Cell.nan →
      ∃ u, close_position (pre ++ t :: post) i v d n = pre ++ u :: post ∧
        u.notes = Cell.str ("nan" ++ " | 卖出备注: " ++ n)) := by
  refine ⟨?_, ?_, ?_⟩
  · intro s hs hne
    refine ⟨applyClose t v d n,
      close_position_first pre t post i v d n hpre ht, ?_, ?_⟩
    · have htr : cellTruthy t.notes = true := by
        rw [hs]
        simp only [cellTruthy, Bool.not_eq_true']
        rw [Bool.eq_false_iff]
        intro hb
        exact hne ((String.isEmpty_iff s).mp hb)
      simp only [applyClose, htr, if_true]
      rw [hs]
      rfl
    · exact ⟨" | 卖出备注: " ++ n, by rw [String.append_assoc]⟩
  · intro hcase
    refine ⟨applyClose t v d n,
      close_position_first pre t post i v d n hpre ht, ?_⟩
    have htr : cellTruthy t.notes = false := by
      rcases hcase with h | h <;> rw [h] <;> rfl
    simp only [applyClose, htr, Bool.false_eq_true, if_false]
  · intro hnan
    refine ⟨applyClose t v d n,
      close_position_first pre t post i v d n hpre ht, ?_⟩
    have htr : cellTruthy t.notes = true := by rw [hnan]; rfl
    simp only [applyClose, htr, if_true]
    rw [hnan]
    rfl

/-- Claim C7 witness: closing the row opened with notes "A" using
close-time notes "B" appends behind the labelled separator, keeping "A"
as a verbatim prefix. -/
theorem claim_C7_witness :
    ∃ u, close_position ([] ++ rowOpen :: []) 5 150 ⟨2024, 3, 1⟩ "B" = [] ++ u :: [] ∧
      u.notes = Cell.str ("A" ++ " | 卖出备注: " ++ "B") ∧
      ∃ rest, "A" ++ " | 卖出备注: " ++ "B" = "A" ++ rest :=
  (claim_C7 [] rowOpen [] 5 150 ⟨2024, 3, 1⟩ "B" (by simp) rfl).1 "A" rfl (by decide)

/-- Claim C8: closing a row whose cost basis is zero takes the guarded
branch — no division is performed and `pnl_percent` is set to 0. -/
theorem claim_C8 (pre : List Trade) (t : Trade) (post : List Trade) (i : Int)
    (v : ℚ) (d : Date) (n : String)
    (hpre : ∀ u ∈ pre, u.id ≠ i) (ht : t.id = i)
    (hzero : t.buy_price * (t.quantity : ℚ) = 0) :
    ∃ u, close_position (pre ++ t :: post) i v d n = pre ++ u :: post ∧
      u.pnl_percent = Cell.int 0 := by
  refine ⟨applyClose t v d n,
    close_position_first pre t post i v d n hpre ht, ?_⟩
  simp only [applyClose]
  rw [if_neg (not_not_intro hzero)]

/-- A row bought at price 0 with quantity 5: zero cost basis. -/
def rowZero : Trade := { rowOpen with buy_price := 0, quantity := 5 }

/-- Claim C8 witness: closing the zero-cost row never divides and yields
`pnl_percent = 0`. -/
theorem claim_C8_witness :
    ∃ u, close_position ([] ++ rowZero :: []) 5 10 ⟨2024, 3, 1⟩ "" = [] ++ u :: [] ∧
      u.pnl_percent = Cell.int 0 :=
  claim_C8 [] rowZero [] 5 10 ⟨2024, 3, 1⟩ "" (by simp) rfl (by norm_num [rowZero, rowOpen])

/-- Claim C9: writing a table of canonical rows through `save_data`
(dates as `YYYY-MM-DD` strings, absent values as empty strings) and
loading it back through normalization reproduces exactly the same rows
with identical field values. -/
theorem claim_C9 (df : List Trade) (h : ∀ t ∈ df, canonTrade t = true) :
    normalize (save_data df) = df :=
  normalize_save_data df h

/-- Claim C9 witness: the round trip on a concrete two-row table. -/
theorem claim_C9_witness :
    (∀ t ∈ [rowOpen, rowClosed], canonTrade t = true) ∧
    normalize (save_data [rowOpen, rowClosed]) = [rowOpen, rowClosed] :=
  ⟨by decide, claim_C9 [rowOpen, rowClosed] (by decide)⟩

/-- Claim C10: a row whose status is neither the exact string OPEN nor
CLOSED (the status column being uncoerced) is listed by neither view, yet
its id still bounds the id allocator, and delete still removes it. -/
theorem claim_C10 (df : List Trade) (t : Trade) (hmem : t ∈ df)
    (ho : t.status ≠ Cell.str "OPEN") (hc : t.status ≠ Cell.str "CLOSED") :
    t ∉ get_open_positions df ∧ t ∉ get_closed_trades df ∧
    t.id ≤ maxWith0 df ∧ t.id < nextId df ∧ t ∉ delete_trade df t.id := by
  refine ⟨?_, ?_, ?_, id_lt_nextId df t hmem, ?_⟩
  · intro hmem2
    have h2 := (List.mem_filter.mp hmem2).2
    exact ho (by simpa using h2)
  · intro hmem2
    have hmem3 := (get_closed_trades_perm df).mem_iff.mp hmem2
    have h2 := (List.mem_filter.mp hmem3).2
    exact hc (by simpa using h2)
  · rw [maxWith0_eq]
    exact le_trans (id_le_dfMaxId df t hmem) (le_max_right _ _)
  · intro hmem2
    have h2 := (List.mem_filter.mp hmem2).2
    simp at h2

/-- A row with the unrecognized status `PENDING`. -/
def rowWeird : Trade := { rowOpen with id := 7, status := Cell.str "PENDING" }

/-- Claim C10 witness: the PENDING row is invisible to both views of the
two-row table, participates in id allocation, and is deleted by id. -/
theorem claim_C10_witness :
    rowWeird ∉ get_open_positions [rowOpen, rowWeird] ∧
    rowWeird ∉ get_closed_trades [rowOpen, rowWeird] ∧
    rowWeird.id ≤ maxWith0 [rowOpen, rowWeird] ∧
    rowWeird.id < nextId [rowOpen, rowWeird] ∧
    rowWeird ∉ delete_trade [rowOpen, rowWeird] rowWeird.id :=
  claim_C10 [rowOpen, rowWeird] rowWeird (by decide) (by decide) (by decide)

end StockTracer
